import Mathlib

/-!
Shallow embedding of the OCI block-volume provisioner core
(`pkg/provisioner/block/block.go`) and verification of the claims about it.

Conventions of the embedding:
* Go strings are embedded as `List Char` (`Str`); `strings.Split` with a
  one-character separator is `splitChar`.
* Go maps (`map[string]string`, `map[string]map[string]interface{}`) are
  embedded as association lists with Go-map update semantics: `insertA`
  overwrites the entry of an existing key in place and appends a new key,
  `lookupA` is map indexing.  The `interface{}` values stored by the code
  are always strings, so the inner value type is `Str`.
* `resource.Quantity` is embedded by its integer byte value (`Int`);
  `Quantity.Cmp` is `quantityCmp`.  Go's `int64` division truncates toward
  zero, which is `Int.tdiv`.
* Side effects (environment variables, the cloud client, the instance
  metadata service) are passed in explicitly; the create-volume and
  delete-volume calls actually issued are returned as an explicit call
  list so that "no cloud call happens" is a provable statement.
-/

/-- Go strings, embedded as their character lists. -/
abbrev Str := List Char

/-- Literal helper: the character list of a Lean string literal. -/
def s (x : String) : Str := x.data

/-- `strings.Split` with a single-character separator: Go semantics, so
`splitChar sep [] = [[]]` and separators delimit (possibly empty) fields. -/
def splitChar (sep : Char) : Str → List Str
  | [] => [[]]
  | c :: rest =>
    match splitChar sep rest with
    | [] => [[c]]
    | p :: ps => if c = sep then [] :: p :: ps else (c :: p) :: ps

/-- Number of occurrences of a character in a string. -/
def countCh (c : Char) : Str → Nat
  | [] => 0
  | c' :: rest => (if c' = c then 1 else 0) + countCh c rest

/-- Go-map assignment `m[k] = v` on an association list: overwrite the
first entry with key `k` in place, or append the new entry. -/
def insertA {α : Type} (k : Str) (v : α) : List (Str × α) → List (Str × α)
  | [] => [(k, v)]
  | (k', v') :: rest => if k' = k then (k, v) :: rest else (k', v') :: insertA k v rest

/-- Go-map lookup `m[k]` on an association list. -/
def lookupA {α : Type} (k : Str) : List (Str × α) → Option α
  | [] => none
  | (k', v) :: rest => if k' = k then some v else lookupA k rest

/-- The keys of an association list. -/
def keysOf {α : Type} (m : List (Str × α)) : List Str := m.map Prod.fst

/-- Free-form tags: key → value (Go `map[string]string`). -/
abbrev Freeform := List (Str × Str)

/-- Defined tags: tag namespace → (key → value)
(Go `map[string]map[string]interface{}`, values always strings here). -/
abbrev Defined := List (Str × Freeform)

/-- The error returned by `parseTags`: `fmt.Errorf` with the offending
comma-separated piece carried verbatim (the `%q` argument). -/
inductive TagErr : Type
  | formatError (piece : Str)
deriving DecidableEq

/-- The `for _, tag := range strings.Split(tagStr, ",")` loop body of
`parseTags` (block.go lines 224-247), threading the two maps. -/
def parseTagsLoop : List Str → Defined → Freeform → Except TagErr (Defined × Freeform)
  | [], defined, freeform => .ok (defined, freeform)
  | tag :: rest, defined, freeform =>
    match splitChar '=' tag with
    | [key, value] =>
      match splitChar '.' key with
      | [_] => parseTagsLoop rest defined (insertA key value freeform)
      | [ns, k] =>
        parseTagsLoop rest (insertA ns (insertA k value ((lookupA ns defined).getD [])) defined) freeform
      | _ => .error (.formatError tag)
    | _ => .error (.formatError tag)

/-- `parseTags` (block.go lines 215-250). -/
def parseTags (tagStr : Str) : Except TagErr (Defined × Freeform) :=
  if tagStr = [] then .ok ([], []) else parseTagsLoop (splitChar ',' tagStr) [] []

/-- The free-form half of the merge loop in `getTags` (block.go lines
208-210): overlay each entry of `overlay` onto `base` by map assignment. -/
def overlayFF (base overlay : Freeform) : Freeform :=
  overlay.foldl (fun acc kv => insertA kv.1 kv.2 acc) base

/-- The defined-tags half of the merge loop in `getTags` (block.go lines
198-206): for each overlay namespace, take the base namespace map (or a
fresh empty one) and assign every overlay key into it. -/
def overlayDefined (base overlay : Defined) : Defined :=
  overlay.foldl (fun acc nsTags => insertA nsTags.1 (overlayFF ((lookupA nsTags.1 acc).getD []) nsTags.2) acc) base

/-- `getTags` (block.go lines 186-213), with the two specification strings
(the `OCI_DEFAULT_TAGS` environment value and the per-claim tag
annotation value) passed explicitly. -/
def getTags (defaultsSpec annSpec : Str) : Except TagErr (Defined × Freeform) :=
  match parseTags defaultsSpec with
  | .error e => .error e
  | .ok (defaultDefinedTags, defaultFreeformTags) =>
    match parseTags annSpec with
    | .error e => .error e
    | .ok (definedTags, freeformTags) =>
      .ok (overlayDefined defaultDefinedTags definedTags,
           overlayFF defaultFreeformTags freeformTags)

/-- The smallest `int64` value, `-2^63`. -/
def int64Min : Int := -9223372036854775808

/-- The largest `int64` value, `2^63 - 1`. -/
def int64Max : Int := 9223372036854775807

/-- Two's-complement wrap-around of an integer into the `int64` range,
as Go defines signed-integer overflow. -/
def wrap64 (x : Int) : Int := (x - int64Min) % 18446744073709551616 + int64Min

/-- `roundUpSize` (block.go lines 82-84) on Go `int64` arithmetic: the
numerator `volumeSizeBytes + allocationUnitBytes - 1` wraps on overflow,
division truncates toward zero (`Int.tdiv`), and the quotient wraps
(which matters only at `int64Min / -1`). -/
def roundUpSize (volumeSizeBytes allocationUnitBytes : Int) : Int :=
  wrap64 (Int.tdiv (wrap64 (volumeSizeBytes + allocationUnitBytes - 1)) allocationUnitBytes)

/-- `resource.Quantity.Cmp` on the embedded byte values: -1, 0 or 1. -/
def quantityCmp (a b : Int) : Int :=
  if a < b then -1 else if b < a then 1 else 0

/-- The allocation unit used by `Provision`: `1024*1024` bytes. -/
def mib : Int := 1024 * 1024

/-- The `ociVolumeID` annotation key (block.go line 41). -/
def ociVolumeIDKey : Str := s "ociVolumeID"

/-- The backup-source annotation key `ociVolumeBackupID` (block.go line 42). -/
def ociVolumeBackupIDKey : Str := s "volume.beta.kubernetes.io/oci-volume-source"

/-- The per-claim additional-tags annotation key (block.go line 43). -/
def ociTagAnnKey : Str := s "oraclecloud.com/additional-tags"

/-- The `fsType` parameter key (block.go line 47). -/
def fsTypeKey : Str := s "fsType"

/-- Kubernetes persistent-volume access modes (the ones relevant here). -/
inductive AccessMode : Type
  | ReadWriteOnce
  | ReadOnlyMany
  | ReadWriteMany
deriving DecidableEq

/-- The claim (`options.PVC`): name, access modes, the storage request
(`Spec.Resources.Requests[storage]`, `none` when absent), and the string
annotation map. -/
structure PVC where
  name : Str
  accessModes : List AccessMode
  storageRequest : Option Int
  anns : List (Str × Str)
deriving DecidableEq

/-- `controller.VolumeOptions`: the claim plus the `Parameters` map
consulted by `resolveFSType`. -/
structure VolumeOptions where
  pvc : PVC
  params : List (Str × Str)
deriving DecidableEq

/-- The process environment read by `Provision`:
`OCI_VOLUME_NAME_PREFIX` (via `os.Getenv`, missing = empty string),
`OCI_DEFAULT_TAGS` (via `os.Getenv`), and `OCI_SHORT_REGION`
(via `os.LookupEnv`, hence an `Option`). -/
structure Env where
  volumePrefixVal : Str
  defaultTagsVal : Str
  shortRegion : Option Str
deriving DecidableEq

/-- The receiver `blockProvisioner`: the compartment OCID exposed by the
client, the rounding flag and the minimum-volume-size quantity. -/
structure BlockProvisioner where
  compartmentOCID : Str
  volumeRoundingEnabled : Bool
  minVolumeSize : Int
deriving DecidableEq

/-- `core.CreateVolumeDetails` as filled in by `Provision`
(block.go lines 112-130). -/
structure CreateVolumeDetails where
  adName : Str
  compartmentId : Str
  displayName : Str
  sizeInMBs : Int
  definedTags : Defined
  freeformTags : Freeform
  sourceBackupId : Option Str
deriving DecidableEq

/-- The cloud volume returned by a successful create-volume call. -/
structure Volume where
  id : Str
deriving DecidableEq

/-- Scripted responses of the external collaborators: the create-volume
call of the cloud client and the `metadata.Get()` region lookup. -/
structure CloudResponses where
  createVolume : Except Str Volume
  metadataRegion : Except Str Str

/-- The `v1.PersistentVolume` descriptor assembled by `Provision`
(block.go lines 157-181), restricted to the fields the code sets. -/
structure PersistentVolume where
  name : Str
  volumeIDAnn : Str
  regionLabel : Str
  zoneLabel : Str
  capacity : Int
  accessModes : List AccessMode
  reclaimPolicy : Str
  fsType : Str
deriving DecidableEq

/-- The errors `Provision` can return. -/
inductive PErr : Type
  | invalidAccessMode (m : AccessMode)
  | noCapacity
  | tagError (e : TagErr)
  | cloudError (msg : Str)
  | metadataError (msg : Str)
deriving DecidableEq

/-- A `Provision` run: the list of create-volume requests actually issued
to the cloud client, and the returned descriptor or error. -/
structure ProvisionResult where
  createCalls : List CreateVolumeDetails
  outcome : Except PErr PersistentVolume

/-- `resolveFSType` (block.go lines 74-80). -/
def resolveFSType (options : VolumeOptions) : Str :=
  (lookupA fsTypeKey options.params).getD (s "ext4")

/-- The size computation of `Provision` (block.go lines 100-108): the
MB size from the requested capacity, replaced by the MB size of the
minimum-volume-size floor — together with the capacity itself — when
rounding is enabled and `minVolumeSize.Cmp(capacity) == 1`.
Returns `(volSizeMB, capacity)`. -/
def provSizing (block : BlockProvisioner) (capacity : Int) : Int × Int :=
  let volSizeMB := roundUpSize capacity mib
  if block.volumeRoundingEnabled && (quantityCmp block.minVolumeSize capacity == 1)
  then (roundUpSize block.minVolumeSize mib, block.minVolumeSize)
  else (volSizeMB, capacity)

/-- `blockProvisioner.Provision` (block.go lines 87-184).  The reclaim
policy is threaded through untouched; `ad` is the availability-domain
name.  The local `prefix` computed at lines 134-137 is dead code (it is
never read after being assigned), so it has no counterpart here; the
display name uses the raw environment value exactly as line 115 does. -/
def Provision (block : BlockProvisioner) (env : Env) (options : VolumeOptions)
    (ad : Str) (reclaimPolicy : Str) (cloud : CloudResponses) : ProvisionResult :=
  match options.pvc.accessModes.find? (fun accessMode => !(accessMode = AccessMode.ReadWriteOnce)) with
  | some accessMode => ⟨[], .error (.invalidAccessMode accessMode)⟩
  | none =>
  match options.pvc.storageRequest with
  | none => ⟨[], .error .noCapacity⟩
  | some capacity0 =>
  let sized := provSizing block capacity0
  let volSizeMB := sized.1
  let capacity := sized.2
  let volumeDetails : CreateVolumeDetails :=
    { adName := ad
      compartmentId := block.compartmentOCID
      displayName := env.volumePrefixVal ++ options.pvc.name
      sizeInMBs := volSizeMB
      definedTags := []
      freeformTags := []
      sourceBackupId := none }
  match getTags env.defaultTagsVal ((lookupA ociTagAnnKey options.pvc.anns).getD []) with
  | .error e => ⟨[], .error (.tagError e)⟩
  | .ok (definedTags, freeformTags) =>
  let volumeDetails := { volumeDetails with definedTags := definedTags, freeformTags := freeformTags }
  let volumeDetails :=
    match lookupA ociVolumeBackupIDKey options.pvc.anns with
    | some value => { volumeDetails with sourceBackupId := some value }
    | none => volumeDetails
  match cloud.createVolume with
  | .error e => ⟨[volumeDetails], .error (.cloudError e)⟩
  | .ok newVolume =>
  let filesystemType := resolveFSType options
  match (match env.shortRegion with
         | some region => Except.ok region
         | none => cloud.metadataRegion) with
  | .error e => ⟨[volumeDetails], .error (.metadataError e)⟩
  | .ok region =>
    ⟨[volumeDetails],
     .ok { name := newVolume.id
           volumeIDAnn := newVolume.id
           regionLabel := region
           zoneLabel := ad
           capacity := capacity
           accessModes := options.pvc.accessModes
           reclaimPolicy := reclaimPolicy
           fsType := filesystemType }⟩

/-- The outcome of the delete-volume call: the HTTP status code of the
raw response (`none` models `RawResponse == nil`) and the error value. -/
structure DeleteVolumeResponse where
  rawStatusCode : Option Int
  err : Option Str
deriving DecidableEq

/-- A `Delete` run: the volume identifiers of the delete-volume requests
actually issued, and the returned error (`none` = success). -/
structure DeleteResult where
  deleteCalls : List Str
  err : Option Str
deriving DecidableEq

/-- The message of `errors.New("volumeid annotation not found on PV")`
(block.go line 256). -/
def volumeidMissingMsg : Str := s "volumeid annotation not found on PV"

/-- `blockProvisioner.Delete` (block.go lines 253-272): look up the
`ociVolumeID` annotation of the descriptor; issue the delete-volume call;
a 404 (`http.StatusNotFound`) raw response is success, otherwise the
call's error is returned as is. -/
def Delete (volumeAnns : List (Str × Str)) (resp : DeleteVolumeResponse) : DeleteResult :=
  match lookupA ociVolumeIDKey volumeAnns with
  | none => ⟨[], some volumeidMissingMsg⟩
  | some volID =>
    if resp.rawStatusCode = some 404 then ⟨[volID], none⟩
    else ⟨[volID], resp.err⟩

/-- The create-volume request `Provision` issues on the success path,
assembled from its inputs (used to state the claims about `Provision`). -/
def provDetails (block : BlockProvisioner) (env : Env) (options : VolumeOptions)
    (ad : Str) (cap : Int) (dT : Defined) (fT : Freeform) : CreateVolumeDetails :=
  { adName := ad
    compartmentId := block.compartmentOCID
    displayName := env.volumePrefixVal ++ options.pvc.name
    sizeInMBs := (provSizing block cap).1
    definedTags := dT
    freeformTags := fT
    sourceBackupId := lookupA ociVolumeBackupIDKey options.pvc.anns }

/-- The descriptor `Provision` returns on the success path, assembled from
its inputs (used to state the claims about `Provision`). -/
def provPV (block : BlockProvisioner) (options : VolumeOptions) (ad reclaimPolicy : Str)
    (cap : Int) (vol : Volume) (region : Str) : PersistentVolume :=
  { name := vol.id
    volumeIDAnn := vol.id
    regionLabel := region
    zoneLabel := ad
    capacity := (provSizing block cap).2
    accessModes := options.pvc.accessModes
    reclaimPolicy := reclaimPolicy
    fsType := resolveFSType options }

/-- Well-formedness of a parsed tag pair: all key lists are duplicate-free
(an invariant of every map `parseTags` builds). -/
def TagsWF (d : Defined) (f : Freeform) : Prop :=
  (keysOf d).Nodup ∧ (keysOf f).Nodup ∧ ∀ ns m, lookupA ns d = some m → (keysOf m).Nodup

/-- Example receiver with rounding enabled and a 50 MiB minimum size. -/
def exBlockR : BlockProvisioner := ⟨s "compartment1", true, 52428800⟩

/-- Example receiver with rounding disabled. -/
def exBlockNR : BlockProvisioner := ⟨s "compartment1", false, 52428800⟩

/-- Example environment: raw volume-name prefix value `abc`, no default
tags, explicit short-region override. -/
def exEnv : Env := ⟨s "abc", [], some (s "phx")⟩

/-- Example claim requesting 10 MiB with the supported access mode. -/
def exPVC : PVC := ⟨s "claim", [AccessMode.ReadWriteOnce], some 10485760, []⟩

/-- Example options wrapping `exPVC`. -/
def exOptions : VolumeOptions := ⟨exPVC, []⟩

/-- Example options with an unsupported access mode. -/
def exOptionsBadMode : VolumeOptions :=
  ⟨⟨s "claim", [AccessMode.ReadWriteMany], some 1048576, []⟩, []⟩

/-- Example options with no storage request. -/
def exOptionsNoCap : VolumeOptions := ⟨⟨s "claim", [AccessMode.ReadWriteOnce], none, []⟩, []⟩

/-- Example options with a malformed per-claim tag annotation value. -/
def exOptionsBadTags : VolumeOptions :=
  ⟨⟨s "claim", [AccessMode.ReadWriteOnce], some 1048576, [(ociTagAnnKey, s "bad")]⟩, []⟩

/-- Example cloud volume returned by the scripted create call. -/
def exVol : Volume := ⟨s "ocid1.volume.oc1.phx.vol1"⟩

/-- Example scripted collaborator responses (both succeed). -/
def exCloud : CloudResponses := ⟨.ok exVol, .ok (s "phx")⟩

/-- Example descriptor annotation map carrying a volume identifier. -/
def exVolAnns : List (Str × Str) := [(ociVolumeIDKey, s "vol1")]

/-- Example delete response: 404 raw status with a non-nil error. -/
def exResp404 : DeleteVolumeResponse := ⟨some 404, some (s "not found")⟩

/-- Example delete response: a 500 raw status and an error. -/
def exRespErr : DeleteVolumeResponse := ⟨some 500, some (s "boom")⟩

/-- Example default-tags specification (from the spec's merge example). -/
def exDefaultsSpec : Str := s "a=1,ns.x=9"

/-- Example per-claim tag specification (from the spec's merge example). -/
def exAnnSpec : Str := s "a=2,c=3,ns.x=10,ns.y=5"

/-- Parsed defined tags of `exDefaultsSpec`. -/
def exDD : Defined := [(s "ns", [(s "x", s "9")])]

/-- Parsed free-form tags of `exDefaultsSpec`. -/
def exDF : Freeform := [(s "a", s "1")]

/-- Parsed defined tags of `exAnnSpec`. -/
def exAD : Defined := [(s "ns", [(s "x", s "10"), (s "y", s "5")])]

/-- Parsed free-form tags of `exAnnSpec`. -/
def exAF : Freeform := [(s "a", s "2"), (s "c", s "3")]

/-- Example malformed tag specification. -/
def exBadSpec : Str := s "bad"

theorem splitChar_ne_nil (sep : Char) (l : Str) : splitChar sep l ≠ [] := by
  cases l with
  | nil => simp [splitChar]
  | cons c rest =>
    simp only [splitChar]
    cases h : splitChar sep rest with
    | nil => simp
    | cons p ps => by_cases hc : c = sep <;> simp [hc]

theorem length_splitChar (sep : Char) (l : Str) :
    (splitChar sep l).length = countCh sep l + 1 := by
  induction l with
  | nil => rfl
  | cons c rest ih =>
    simp only [splitChar, countCh]
    cases h : splitChar sep rest with
    | nil => exact absurd h (splitChar_ne_nil sep rest)
    | cons p ps =>
      rw [h] at ih
      by_cases hc : c = sep <;> simp [hc] <;> simp at ih <;> omega

theorem splitChar_eq_single (sep : Char) (l : Str) (h : countCh sep l = 0) :
    splitChar sep l = [l] := by
  induction l with
  | nil => rfl
  | cons c rest ih =>
    have hc : ¬ c = sep := by intro hcc; simp [countCh, hcc] at h
    have h2 : countCh sep rest = 0 := by simpa [countCh, hc] using h
    simp only [splitChar, ih h2]
    simp [hc]

theorem splitChar_append (sep : Char) (a b : Str) (ha : countCh sep a = 0) :
    splitChar sep (a ++ sep :: b) = a :: splitChar sep b := by
  induction a with
  | nil =>
    simp only [List.nil_append, splitChar]
    cases h : splitChar sep b with
    | nil => exact absurd h (splitChar_ne_nil sep b)
    | cons p ps => simp
  | cons c arest ih =>
    have hc : ¬ c = sep := by intro hcc; simp [countCh, hcc] at ha
    have ha2 : countCh sep arest = 0 := by simpa [countCh, hc] using ha
    simp only [List.cons_append, splitChar, List.append_eq]
    rw [ih ha2]
    simp [hc]

theorem countCh_append (c : Char) (a b : Str) :
    countCh c (a ++ b) = countCh c a + countCh c b := by
  induction a with
  | nil => simp [countCh]
  | cons x rest ih => simp [countCh, ih]; omega

theorem insertA_cons_self {α : Type} (k : Str) (v v1 : α) (rest : List (Str × α)) :
    insertA k v ((k, v1) :: rest) = (k, v) :: rest := by
  simp [insertA]

theorem insertA_cons_ne {α : Type} (k k1 : Str) (v : α) (v1 : α) (rest : List (Str × α))
    (h1 : ¬ k1 = k) : insertA k v ((k1, v1) :: rest) = (k1, v1) :: insertA k v rest := by
  simp [insertA, h1]

theorem lookupA_cons_self {α : Type} (k : Str) (v : α) (rest : List (Str × α)) :
    lookupA k ((k, v) :: rest) = some v := by
  simp [lookupA]

theorem lookupA_cons_ne {α : Type} (k k1 : Str) (v1 : α) (rest : List (Str × α))
    (h1 : ¬ k1 = k) : lookupA k ((k1, v1) :: rest) = lookupA k rest := by
  simp [lookupA, h1]

theorem lookupA_insertA_self {α : Type} (k : Str) (v : α) (m : List (Str × α)) :
    lookupA k (insertA k v m) = some v := by
  induction m with
  | nil => exact lookupA_cons_self k v []
  | cons kv rest ih =>
    obtain ⟨k1, v1⟩ := kv
    by_cases h : k1 = k
    · subst h; rw [insertA_cons_self, lookupA_cons_self]
    · rw [insertA_cons_ne k k1 v v1 rest h, lookupA_cons_ne k k1 v1 _ h, ih]

theorem lookupA_insertA_ne {α : Type} (k k' : Str) (v : α) (m : List (Str × α))
    (h : ¬ k' = k) : lookupA k' (insertA k v m) = lookupA k' m := by
  have h' : ¬ k = k' := fun hh => h hh.symm
  induction m with
  | nil => simp [insertA, lookupA, h']
  | cons kv rest ih =>
    obtain ⟨k1, v1⟩ := kv
    by_cases h1 : k1 = k
    · subst h1
      rw [insertA_cons_self, lookupA_cons_ne k' k1 v rest h', lookupA_cons_ne k' k1 v1 rest h']
    · rw [insertA_cons_ne k k1 v v1 rest h1]
      by_cases h2 : k1 = k'
      · subst h2; rw [lookupA_cons_self, lookupA_cons_self]
      · rw [lookupA_cons_ne k' k1 v1 _ h2, lookupA_cons_ne k' k1 v1 rest h2, ih]

theorem mem_keysOf_insertA {α : Type} (a k : Str) (v : α) (m : List (Str × α)) :
    a ∈ keysOf (insertA k v m) ↔ a = k ∨ a ∈ keysOf m := by
  induction m with
  | nil =>
    simp only [insertA, keysOf, List.map_cons, List.map_nil, List.mem_cons,
      List.not_mem_nil, or_false]
  | cons kv rest ih =>
    obtain ⟨k1, v1⟩ := kv
    by_cases h1 : k1 = k
    · subst h1
      rw [insertA_cons_self]
      simp only [keysOf, List.map_cons, List.mem_cons]
      tauto
    · rw [insertA_cons_ne k k1 v v1 rest h1]
      simp only [keysOf, List.map_cons, List.mem_cons] at ih ⊢
      rw [ih]
      tauto

theorem nodup_keysOf_insertA {α : Type} (k : Str) (v : α) (m : List (Str × α))
    (h : (keysOf m).Nodup) : (keysOf (insertA k v m)).Nodup := by
  induction m with
  | nil => simp [insertA, keysOf]
  | cons kv rest ih =>
    obtain ⟨k1, v1⟩ := kv
    simp only [keysOf, List.map_cons, List.nodup_cons] at h
    obtain ⟨h1, h2⟩ := h
    by_cases hk : k1 = k
    · subst hk
      rw [insertA_cons_self]
      simp only [keysOf, List.map_cons, List.nodup_cons]
      exact ⟨h1, h2⟩
    · rw [insertA_cons_ne k k1 v v1 rest hk]
      simp only [keysOf, List.map_cons, List.nodup_cons]
      refine ⟨?_, ih h2⟩
      intro hmem
      rcases (mem_keysOf_insertA k1 k v rest).mp hmem with h3 | h3
      · exact hk h3
      · exact h1 h3

theorem lookupA_eq_none_iff {α : Type} (k : Str) (m : List (Str × α)) :
    lookupA k m = none ↔ ¬ k ∈ keysOf m := by
  induction m with
  | nil => simp [lookupA, keysOf]
  | cons kv rest ih =>
    obtain ⟨k1, v1⟩ := kv
    by_cases h : k1 = k
    · subst h
      rw [lookupA_cons_self]
      simp only [keysOf, List.map_cons, List.mem_cons]
      tauto
    · have h' : ¬ k = k1 := fun hh => h hh.symm
      rw [lookupA_cons_ne k k1 v1 rest h]
      simp only [keysOf, List.map_cons, List.mem_cons] at ih ⊢
      rw [ih]
      tauto

theorem lookupA_overlayFF (overlay : Freeform) (base : Freeform) (k : Str)
    (h : (keysOf overlay).Nodup) :
    lookupA k (overlayFF base overlay) =
      match lookupA k overlay with
      | some v => some v
      | none => lookupA k base := by
  induction overlay generalizing base with
  | nil => simp [overlayFF, lookupA]
  | cons kv rest ih =>
    obtain ⟨k1, v1⟩ := kv
    simp only [keysOf, List.map_cons, List.nodup_cons] at h
    have hfold : overlayFF base ((k1, v1) :: rest) = overlayFF (insertA k1 v1 base) rest := rfl
    by_cases hk : k1 = k
    · subst hk
      have hnone : lookupA k1 rest = none :=
        (lookupA_eq_none_iff k1 rest).mpr (by simpa [keysOf] using h.1)
      rw [hfold, ih _ h.2, hnone]
      simp [lookupA_insertA_self, lookupA_cons_self]
    · have hk' : ¬ k = k1 := fun hh => hk hh.symm
      rw [hfold, ih _ h.2, lookupA_insertA_ne k1 k v1 base hk', lookupA_cons_ne k k1 v1 rest hk]

theorem lookupA_overlayDefined (overlay : Defined) (base : Defined) (ns : Str)
    (h : (keysOf overlay).Nodup) :
    lookupA ns (overlayDefined base overlay) =
      match lookupA ns overlay with
      | some nsT => some (overlayFF ((lookupA ns base).getD []) nsT)
      | none => lookupA ns base := by
  induction overlay generalizing base with
  | nil => simp [overlayDefined, lookupA]
  | cons kv rest ih =>
    obtain ⟨n1, t1⟩ := kv
    simp only [keysOf, List.map_cons, List.nodup_cons] at h
    have hfold : overlayDefined base ((n1, t1) :: rest) =
        overlayDefined (insertA n1 (overlayFF ((lookupA n1 base).getD []) t1) base) rest := rfl
    by_cases hk : n1 = ns
    · subst hk
      have hnone : lookupA n1 rest = none :=
        (lookupA_eq_none_iff n1 rest).mpr (by simpa [keysOf] using h.1)
      rw [hfold, ih _ h.2, hnone]
      simp [lookupA_insertA_self, lookupA_cons_self]
    · have hk' : ¬ ns = n1 := fun hh => hk hh.symm
      rw [hfold, ih _ h.2, lookupA_insertA_ne n1 ns _ base hk',
        lookupA_cons_ne ns n1 t1 rest hk]

theorem tagsWF_nil : TagsWF [] [] := by
  refine ⟨by simp [keysOf], by simp [keysOf], ?_⟩
  intro ns m hm
  simp [lookupA] at hm

theorem tagsWF_insert_ff (d : Defined) (f : Freeform) (k v : Str) (h : TagsWF d f) :
    TagsWF d (insertA k v f) :=
  ⟨h.1, nodup_keysOf_insertA k v f h.2.1, h.2.2⟩

theorem tagsWF_insert_def (d : Defined) (f : Freeform) (ns k v : Str) (h : TagsWF d f) :
    TagsWF (insertA ns (insertA k v ((lookupA ns d).getD [])) d) f := by
  refine ⟨nodup_keysOf_insertA _ _ _ h.1, h.2.1, ?_⟩
  intro ns' m' hm'
  by_cases hns : ns' = ns
  · subst hns
    rw [lookupA_insertA_self] at hm'
    cases hm'
    apply nodup_keysOf_insertA
    cases hd : lookupA ns' d with
    | none => simp [keysOf]
    | some m0 => simpa using h.2.2 ns' m0 hd
  · rw [lookupA_insertA_ne ns ns' _ d hns] at hm'
    exact h.2.2 ns' m' hm'

theorem parseTagsLoop_wf (pieces : List Str) : ∀ d f d' f', TagsWF d f →
    parseTagsLoop pieces d f = .ok (d', f') → TagsWF d' f' := by
  induction pieces with
  | nil =>
    intro d f d' f' hwf h
    simp only [parseTagsLoop, Except.ok.injEq, Prod.mk.injEq] at h
    obtain ⟨rfl, rfl⟩ := h
    exact hwf
  | cons tag rest ih =>
    intro d f d' f' hwf h
    simp only [parseTagsLoop] at h
    split at h
    · split at h
      · exact ih _ _ _ _ (tagsWF_insert_ff _ _ _ _ hwf) h
      · exact ih _ _ _ _ (tagsWF_insert_def _ _ _ _ _ hwf) h
      · exact absurd h (by simp)
    · exact absurd h (by simp)

theorem parseTags_wf (tagStr : Str) (d : Defined) (f : Freeform)
    (h : parseTags tagStr = .ok (d, f)) : TagsWF d f := by
  unfold parseTags at h
  by_cases he : tagStr = []
  · rw [if_pos he] at h
    simp only [Except.ok.injEq, Prod.mk.injEq] at h
    obtain ⟨rfl, rfl⟩ := h
    exact tagsWF_nil
  · rw [if_neg he] at h
    exact parseTagsLoop_wf _ _ _ _ _ tagsWF_nil h

theorem parsePiece_error_eq (tag : Str) (rest : List Str) (d : Defined) (f : Freeform)
    (h : ¬ countCh '=' tag = 1) :
    parseTagsLoop (tag :: rest) d f = .error (.formatError tag) := by
  have hlen : (splitChar '=' tag).length = countCh '=' tag + 1 := length_splitChar '=' tag
  simp only [parseTagsLoop]
  cases hsp : splitChar '=' tag with
  | nil => exact absurd hsp (splitChar_ne_nil _ _)
  | cons a l1 =>
    cases l1 with
    | nil => rfl
    | cons b l2 =>
      cases l2 with
      | nil =>
        rw [hsp] at hlen
        simp at hlen
        exfalso
        omega
      | cons c l3 => rfl

theorem parsePiece_freeform (k v : Str) (rest : List Str) (d : Defined) (f : Freeform)
    (hk : countCh '=' k = 0) (hv : countCh '=' v = 0) (hdot : countCh '.' k = 0) :
    parseTagsLoop ((k ++ '=' :: v) :: rest) d f = parseTagsLoop rest d (insertA k v f) := by
  have h1 : splitChar '=' (k ++ '=' :: v) = [k, v] := by
    rw [splitChar_append '=' k v hk, splitChar_eq_single '=' v hv]
  have h2 : splitChar '.' k = [k] := splitChar_eq_single '.' k hdot
  simp only [parseTagsLoop, h1, h2]

theorem parsePiece_defined (ns k v : Str) (rest : List Str) (d : Defined) (f : Freeform)
    (hns : countCh '=' ns = 0) (hk : countCh '=' k = 0) (hv : countCh '=' v = 0)
    (hnsd : countCh '.' ns = 0) (hkd : countCh '.' k = 0) :
    parseTagsLoop (((ns ++ '.' :: k) ++ '=' :: v) :: rest) d f =
      parseTagsLoop rest (insertA ns (insertA k v ((lookupA ns d).getD [])) d) f := by
  have hkey : countCh '=' (ns ++ '.' :: k) = 0 := by
    rw [countCh_append]
    simp [countCh, hns, hk]
  have h1 : splitChar '=' ((ns ++ '.' :: k) ++ '=' :: v) = [ns ++ '.' :: k, v] := by
    rw [splitChar_append '=' _ v hkey, splitChar_eq_single '=' v hv]
  have h2 : splitChar '.' (ns ++ '.' :: k) = [ns, k] := by
    rw [splitChar_append '.' ns k hnsd, splitChar_eq_single '.' k hkd]
  simp only [parseTagsLoop, h1, h2]

theorem parsePiece_too_many_dots (k v : Str) (rest : List Str) (d : Defined) (f : Freeform)
    (hk : countCh '=' k = 0) (hv : countCh '=' v = 0) (hd2 : 2 ≤ countCh '.' k) :
    parseTagsLoop ((k ++ '=' :: v) :: rest) d f = .error (.formatError (k ++ '=' :: v)) := by
  have h1 : splitChar '=' (k ++ '=' :: v) = [k, v] := by
    rw [splitChar_append '=' k v hk, splitChar_eq_single '=' v hv]
  have hlen : (splitChar '.' k).length = countCh '.' k + 1 := length_splitChar '.' k
  simp only [parseTagsLoop, h1]
  cases hsp : splitChar '.' k with
  | nil => exact absurd hsp (splitChar_ne_nil _ _)
  | cons a l1 =>
    cases l1 with
    | nil =>
      rw [hsp] at hlen
      simp at hlen
      exfalso
      omega
    | cons b l2 =>
      cases l2 with
      | nil =>
        rw [hsp] at hlen
        simp at hlen
        exfalso
        omega
      | cons c l3 => rfl

theorem provSizing_rounded (block : BlockProvisioner) (cap : Int)
    (hen : block.volumeRoundingEnabled = true) (hlt : cap < block.minVolumeSize) :
    provSizing block cap = (roundUpSize block.minVolumeSize mib, block.minVolumeSize) := by
  unfold provSizing quantityCmp
  rw [hen]
  have h1 : ¬ block.minVolumeSize < cap := by omega
  simp [h1, hlt]

theorem provSizing_verbatim (block : BlockProvisioner) (cap : Int)
    (h : block.volumeRoundingEnabled = false ∨ block.minVolumeSize ≤ cap) :
    provSizing block cap = (roundUpSize cap mib, cap) := by
  unfold provSizing quantityCmp
  rcases h with h | h
  · simp [h]
  · have h1 : ¬ cap < block.minVolumeSize := by omega
    by_cases h2 : block.minVolumeSize < cap
    · simp [h2]
    · simp [h1, h2]

theorem Provision_success (block : BlockProvisioner) (env : Env) (options : VolumeOptions)
    (ad reclaimPolicy : Str) (cloud : CloudResponses) (cap : Int) (dT : Defined)
    (fT : Freeform) (vol : Volume) (region : Str)
    (hmode : options.pvc.accessModes.find?
      (fun accessMode => !(accessMode = AccessMode.ReadWriteOnce)) = none)
    (hcap : options.pvc.storageRequest = some cap)
    (htags : getTags env.defaultTagsVal
      ((lookupA ociTagAnnKey options.pvc.anns).getD []) = .ok (dT, fT))
    (hcv : cloud.createVolume = .ok vol)
    (hregion : env.shortRegion = some region) :
    Provision block env options ad reclaimPolicy cloud =
      ⟨[provDetails block env options ad cap dT fT],
       .ok (provPV block options ad reclaimPolicy cap vol region)⟩ := by
  unfold Provision provDetails provPV
  rw [hmode, hcap, htags, hcv, hregion]
  cases hb : lookupA ociVolumeBackupIDKey options.pvc.anns with
  | none => simp [hb]
  | some value => simp [hb]

/-- C1: in `Provision`, when volume rounding is enabled and the requested
capacity is strictly below the configured minimum-volume-size floor, the
billable MB size sent in the create-volume request is recomputed from the
floor and the capacity recorded in the returned descriptor is the floor;
a request exactly equal to the floor is left unchanged; and with rounding
disabled the request is used verbatim even below the floor. -/
theorem C1_volume_rounding (block : BlockProvisioner) (env : Env) (options : VolumeOptions)
    (ad reclaimPolicy : Str) (cloud : CloudResponses) (cap : Int) (dT : Defined)
    (fT : Freeform) (vol : Volume) (region : Str)
    (hmode : options.pvc.accessModes.find?
      (fun accessMode => !(accessMode = AccessMode.ReadWriteOnce)) = none)
    (hcap : options.pvc.storageRequest = some cap)
    (htags : getTags env.defaultTagsVal
      ((lookupA ociTagAnnKey options.pvc.anns).getD []) = .ok (dT, fT))
    (hcv : cloud.createVolume = .ok vol)
    (hregion : env.shortRegion = some region) :
    Provision block env options ad reclaimPolicy cloud =
      ⟨[provDetails block env options ad cap dT fT],
       .ok (provPV block options ad reclaimPolicy cap vol region)⟩
    ∧ (block.volumeRoundingEnabled = true → cap < block.minVolumeSize →
        (provDetails block env options ad cap dT fT).sizeInMBs =
            roundUpSize block.minVolumeSize mib
        ∧ (provPV block options ad reclaimPolicy cap vol region).capacity =
            block.minVolumeSize)
    ∧ (cap = block.minVolumeSize →
        (provDetails block env options ad cap dT fT).sizeInMBs = roundUpSize cap mib
        ∧ (provPV block options ad reclaimPolicy cap vol region).capacity = cap)
    ∧ (block.volumeRoundingEnabled = false →
        (provDetails block env options ad cap dT fT).sizeInMBs = roundUpSize cap mib
        ∧ (provPV block options ad reclaimPolicy cap vol region).capacity = cap) := by
  refine ⟨Provision_success block env options ad reclaimPolicy cloud cap dT fT vol region
    hmode hcap htags hcv hregion, ?_, ?_, ?_⟩
  · intro h1 h2
    constructor <;> simp [provDetails, provPV, provSizing_rounded block cap h1 h2]
  · intro h1
    have hv := provSizing_verbatim block cap (Or.inr (le_of_eq h1.symm))
    constructor <;> simp [provDetails, provPV, hv]
  · intro h1
    have hv := provSizing_verbatim block cap (Or.inl h1)
    constructor <;> simp [provDetails, provPV, hv]

/-- C1 witness: with rounding enabled, a 50 MiB floor and a 10 MiB
request, the issued size is computed from the floor and the descriptor
capacity is the floor. -/
theorem C1_volume_rounding_witness :
    Provision exBlockR exEnv exOptions (s "AD-1") (s "Delete") exCloud =
      ⟨[provDetails exBlockR exEnv exOptions (s "AD-1") 10485760 [] []],
       .ok (provPV exBlockR exOptions (s "AD-1") (s "Delete") 10485760 exVol (s "phx"))⟩
    ∧ (provDetails exBlockR exEnv exOptions (s "AD-1") 10485760 [] []).sizeInMBs =
        roundUpSize exBlockR.minVolumeSize mib
    ∧ (provPV exBlockR exOptions (s "AD-1") (s "Delete") 10485760 exVol (s "phx")).capacity =
        exBlockR.minVolumeSize := by
  have h := C1_volume_rounding exBlockR exEnv exOptions (s "AD-1") (s "Delete") exCloud
    10485760 [] [] exVol (s "phx") (by rfl) (by rfl) (by rfl) (by rfl) (by rfl)
  exact ⟨h.1, (h.2.1 rfl (by decide)).1, (h.2.1 rfl (by decide)).2⟩

/-- C4: evidence against the claim.  The display name sent in the
create-volume request is the raw environment value concatenated with the
claim name: no separator is appended to a prefix value that lacks one,
and a whitespace-only prefix value is not treated as absent.  (The
separator-appending local computed at block.go lines 134-137 is dead
code; line 115 uses the raw environment value.) -/
theorem C4_display_name_raw :
    (Provision exBlockNR exEnv exOptions (s "AD-1") (s "Delete") exCloud).createCalls.map
        (fun d => d.displayName) = [s "abcclaim"]
    ∧ (Provision exBlockNR ⟨s "  ", [], some (s "phx")⟩ exOptions (s "AD-1") (s "Delete")
        exCloud).createCalls.map (fun d => d.displayName) = [s "  claim"]
    ∧ ¬ s "abcclaim" = s "abc-claim"
    ∧ ¬ s "  claim" = s "claim" := by
  exact ⟨by rfl, by rfl, by decide, by decide⟩

/-- C5: `Provision` checks its preconditions first and fails fast: an
access mode other than read-write-once yields an invalid-access-mode
error with no cloud call and no descriptor, and a missing storage request
yields a no-capacity error with no cloud call and no descriptor. -/
theorem C5_preconditions (block : BlockProvisioner) (env : Env) (options : VolumeOptions)
    (ad reclaimPolicy : Str) (cloud : CloudResponses) :
    (∀ m, options.pvc.accessModes.find?
        (fun accessMode => !(accessMode = AccessMode.ReadWriteOnce)) = some m →
      Provision block env options ad reclaimPolicy cloud =
        ⟨[], .error (.invalidAccessMode m)⟩)
    ∧ ((∀ m ∈ options.pvc.accessModes, m = AccessMode.ReadWriteOnce) →
        options.pvc.storageRequest = none →
        Provision block env options ad reclaimPolicy cloud = ⟨[], .error .noCapacity⟩) := by
  constructor
  · intro m hm
    unfold Provision
    rw [hm]
  · intro hall hnone
    have hfind : options.pvc.accessModes.find?
        (fun accessMode => !(accessMode = AccessMode.ReadWriteOnce)) = none := by
      rw [List.find?_eq_none]
      intro x hx
      simp [hall x hx]
    unfold Provision
    rw [hfind, hnone]

/-- C5 witness: a read-write-many request and a request with no capacity
each fail fast with the corresponding error and an empty call list. -/
theorem C5_preconditions_witness :
    Provision exBlockNR exEnv exOptionsBadMode (s "AD-1") (s "Delete") exCloud =
      ⟨[], .error (.invalidAccessMode AccessMode.ReadWriteMany)⟩
    ∧ Provision exBlockNR exEnv exOptionsNoCap (s "AD-1") (s "Delete") exCloud =
      ⟨[], .error .noCapacity⟩ :=
  ⟨(C5_preconditions exBlockNR exEnv exOptionsBadMode (s "AD-1") (s "Delete") exCloud).1
      AccessMode.ReadWriteMany (by rfl),
   (C5_preconditions exBlockNR exEnv exOptionsNoCap (s "AD-1") (s "Delete") exCloud).2
      (by decide) (by rfl)⟩

/-- C2: `getTags` starts from the parsed default tags and overlays the
parsed per-request tags: pointwise, a per-request free-form key wins over
the default of the same key and unmentioned default keys are kept; a
per-request namespace is created when absent in the defaults, and within
an existing namespace a per-request key wins while sibling default keys
are kept. -/
theorem C2_tag_merge (dSpec aSpec : Str) (dD : Defined) (dF : Freeform)
    (aD : Defined) (aF : Freeform) (k ns k2 : Str)
    (hd : parseTags dSpec = .ok (dD, dF)) (ha : parseTags aSpec = .ok (aD, aF)) :
    getTags dSpec aSpec = .ok (overlayDefined dD aD, overlayFF dF aF)
    ∧ lookupA k (overlayFF dF aF) =
        (match lookupA k aF with
         | some v => some v
         | none => lookupA k dF)
    ∧ lookupA ns (overlayDefined dD aD) =
        (match lookupA ns aD with
         | some nsT => some (overlayFF ((lookupA ns dD).getD []) nsT)
         | none => lookupA ns dD)
    ∧ (match lookupA ns aD with
       | some nsT =>
         lookupA k2 (overlayFF ((lookupA ns dD).getD []) nsT) =
           (match lookupA k2 nsT with
            | some v => some v
            | none => lookupA k2 ((lookupA ns dD).getD []))
       | none => True) := by
  have hwa := parseTags_wf aSpec aD aF ha
  refine ⟨?_, ?_, ?_, ?_⟩
  · unfold getTags
    rw [hd, ha]
  · exact lookupA_overlayFF aF dF k hwa.2.1
  · exact lookupA_overlayDefined aD dD ns hwa.1
  · cases hns : lookupA ns aD with
    | none => trivial
    | some nsT =>
      exact lookupA_overlayFF nsT ((lookupA ns dD).getD []) k2 (hwa.2.2 ns nsT hns)

/-- C2 witness: the spec's merge example — default `a` is overwritten,
`c` is added, and within namespace `ns` the key `x` is overwritten. -/
theorem C2_tag_merge_witness :
    getTags exDefaultsSpec exAnnSpec = .ok (overlayDefined exDD exAD, overlayFF exDF exAF)
    ∧ lookupA (s "a") (overlayFF exDF exAF) = some (s "2")
    ∧ lookupA (s "ns") (overlayDefined exDD exAD) =
        some (overlayFF ((lookupA (s "ns") exDD).getD []) [(s "x", s "10"), (s "y", s "5")])
    ∧ lookupA (s "x")
        (overlayFF ((lookupA (s "ns") exDD).getD []) [(s "x", s "10"), (s "y", s "5")]) =
        some (s "10") := by
  have h := C2_tag_merge exDefaultsSpec exAnnSpec exDD exDF exAD exAF
    (s "a") (s "ns") (s "x") (by rfl) (by rfl)
  refine ⟨h.1, ?_, ?_, ?_⟩
  · rw [h.2.1]; rfl
  · rw [h.2.2.1]; rfl
  · have h4 : lookupA (s "x")
        (overlayFF ((lookupA (s "ns") exDD).getD []) [(s "x", s "10"), (s "y", s "5")]) =
          (match lookupA (s "x") [(s "x", s "10"), (s "y", s "5")] with
           | some v => some v
           | none => lookupA (s "x") ((lookupA (s "ns") exDD).getD [])) := h.2.2.2
    rw [h4]; rfl

/-- C3: `parseTags` maps the empty string to empty maps without error; a
non-empty string is split on commas and each piece needs exactly one
equals sign (otherwise a format error carrying the piece verbatim); the
key is split on dots: one segment is free-form, two segments are a
namespaced tag, more than two segments are a format error. -/
theorem C3_parseTags_rules (tagStr tag k v ns k2 : Str) (rest : List Str)
    (d : Defined) (f : Freeform) :
    parseTags [] = .ok ([], [])
    ∧ (¬ tagStr = [] → parseTags tagStr = parseTagsLoop (splitChar ',' tagStr) [] [])
    ∧ (¬ countCh '=' tag = 1 →
        parseTagsLoop (tag :: rest) d f = .error (.formatError tag))
    ∧ (countCh '=' k = 0 → countCh '=' v = 0 → countCh '.' k = 0 →
        parseTagsLoop ((k ++ '=' :: v) :: rest) d f = parseTagsLoop rest d (insertA k v f))
    ∧ (countCh '=' ns = 0 → countCh '=' k2 = 0 → countCh '=' v = 0 →
        countCh '.' ns = 0 → countCh '.' k2 = 0 →
        parseTagsLoop (((ns ++ '.' :: k2) ++ '=' :: v) :: rest) d f =
          parseTagsLoop rest (insertA ns (insertA k2 v ((lookupA ns d).getD [])) d) f)
    ∧ (countCh '=' k = 0 → countCh '=' v = 0 → 2 ≤ countCh '.' k →
        parseTagsLoop ((k ++ '=' :: v) :: rest) d f =
          .error (.formatError (k ++ '=' :: v))) := by
  refine ⟨rfl, ?_, ?_, ?_, ?_, ?_⟩
  · intro h
    unfold parseTags
    rw [if_neg h]
  · exact fun h => parsePiece_error_eq tag rest d f h
  · exact fun h1 h2 h3 => parsePiece_freeform k v rest d f h1 h2 h3
  · exact fun h1 h2 h3 h4 h5 => parsePiece_defined ns k2 v rest d f h1 h2 h3 h4 h5
  · exact fun h1 h2 h3 => parsePiece_too_many_dots k v rest d f h1 h2 h3

/-- C3 witness: the parsing rules evaluated on concrete pieces — a piece
with no equals sign errors with the piece verbatim, `a=1` is free-form,
`ns.b=1` is namespaced, and `a.b.c=2` errors. -/
theorem C3_parseTags_rules_witness :
    parseTags [] = .ok ([], [])
    ∧ parseTags (s "a=1") = parseTagsLoop (splitChar ',' (s "a=1")) [] []
    ∧ parseTagsLoop [s "bad"] [] [] = .error (.formatError (s "bad"))
    ∧ parseTagsLoop ((s "a" ++ '=' :: s "1") :: []) [] [] =
        parseTagsLoop [] [] (insertA (s "a") (s "1") [])
    ∧ parseTagsLoop (((s "ns" ++ '.' :: s "b") ++ '=' :: s "1") :: []) [] [] =
        parseTagsLoop []
          (insertA (s "ns") (insertA (s "b") (s "1") ((lookupA (s "ns") []).getD [])) []) []
    ∧ parseTagsLoop ((s "a.b.c" ++ '=' :: s "2") :: []) [] [] =
        .error (.formatError (s "a.b.c" ++ '=' :: s "2")) := by
  have h1 := C3_parseTags_rules (s "a=1") (s "bad") (s "a") (s "1") (s "ns") (s "b") [] [] []
  have h2 := C3_parseTags_rules [] [] (s "a.b.c") (s "2") [] [] [] [] []
  exact ⟨h1.1, h1.2.1 (by decide), h1.2.2.1 (by decide),
    h1.2.2.2.1 (by decide) (by decide) (by decide),
    h1.2.2.2.2.1 (by decide) (by decide) (by decide) (by decide) (by decide),
    h2.2.2.2.2.2 (by decide) (by decide) (by decide)⟩

/-- C6: `Delete` treats a delete-volume response with a 404 raw status as
success, and otherwise returns the call's error unchanged. -/
theorem C6_delete_not_found (volumeAnns : List (Str × Str)) (resp : DeleteVolumeResponse)
    (volID : Str) (h : lookupA ociVolumeIDKey volumeAnns = some volID) :
    (resp.rawStatusCode = some 404 → Delete volumeAnns resp = ⟨[volID], none⟩)
    ∧ (¬ resp.rawStatusCode = some 404 → Delete volumeAnns resp = ⟨[volID], resp.err⟩) := by
  constructor
  · intro h404
    unfold Delete
    rw [h]
    simp [h404]
  · intro h404
    unfold Delete
    rw [h]
    simp [h404]

/-- C6 witness: a 404 response (even with a non-nil error) deletes
successfully; a 500 response surfaces the error unchanged. -/
theorem C6_delete_not_found_witness :
    Delete exVolAnns exResp404 = ⟨[s "vol1"], none⟩
    ∧ Delete exVolAnns exRespErr = ⟨[s "vol1"], some (s "boom")⟩ :=
  ⟨(C6_delete_not_found exVolAnns exResp404 (s "vol1") (by rfl)).1 (by rfl),
   (C6_delete_not_found exVolAnns exRespErr (s "vol1") (by rfl)).2 (by decide)⟩

/-- C7: when the descriptor's annotations lack the volume-identifier
annotation, `Delete` returns the missing-identifier error and issues no
delete-volume call. -/
theorem C7_delete_missing_id (volumeAnns : List (Str × Str)) (resp : DeleteVolumeResponse)
    (h : lookupA ociVolumeIDKey volumeAnns = none) :
    Delete volumeAnns resp = ⟨[], some volumeidMissingMsg⟩ := by
  unfold Delete
  rw [h]

/-- C7 witness: a descriptor with only unrelated annotations yields the
missing-identifier error and an empty call list. -/
theorem C7_delete_missing_id_witness :
    Delete [(s "other", s "x")] exResp404 = ⟨[], some volumeidMissingMsg⟩ :=
  C7_delete_missing_id [(s "other", s "x")] exResp404 (by rfl)

/-- C8: a parse error of either tag source makes `getTags` return that
error and no maps, and a tag-resolution error makes `Provision` abort
with it before any cloud call, returning no descriptor. -/
theorem C8_tag_error_aborts (dSpec aSpec : Str) (e : TagErr) (dD : Defined) (dF : Freeform)
    (block : BlockProvisioner) (env : Env) (options : VolumeOptions)
    (ad reclaimPolicy : Str) (cloud : CloudResponses) (cap : Int) :
    (parseTags dSpec = .error e → getTags dSpec aSpec = .error e)
    ∧ (parseTags dSpec = .ok (dD, dF) → parseTags aSpec = .error e →
        getTags dSpec aSpec = .error e)
    ∧ (options.pvc.accessModes.find?
          (fun accessMode => !(accessMode = AccessMode.ReadWriteOnce)) = none →
        options.pvc.storageRequest = some cap →
        getTags env.defaultTagsVal ((lookupA ociTagAnnKey options.pvc.anns).getD []) =
          .error e →
        Provision block env options ad reclaimPolicy cloud =
          ⟨[], .error (.tagError e)⟩) := by
  refine ⟨?_, ?_, ?_⟩
  · intro h
    unfold getTags
    rw [h]
  · intro h1 h2
    unfold getTags
    rw [h1, h2]
  · intro hmode hcap htags
    unfold Provision
    rw [hmode, hcap, htags]

/-- C8 witness: a malformed defaults specification or a malformed
per-claim specification fails tag resolution, and a claim carrying the
malformed annotation makes `Provision` abort with the tag error and an
empty call list. -/
theorem C8_tag_error_aborts_witness :
    getTags exBadSpec (s "a=1") = .error (.formatError (s "bad"))
    ∧ getTags (s "a=1") exBadSpec = .error (.formatError (s "bad"))
    ∧ Provision exBlockNR exEnv exOptionsBadTags (s "AD-1") (s "Delete") exCloud =
        ⟨[], .error (.tagError (.formatError (s "bad")))⟩ := by
  have h1 := C8_tag_error_aborts exBadSpec (s "a=1") (.formatError (s "bad")) [] []
    exBlockNR exEnv exOptionsBadTags (s "AD-1") (s "Delete") exCloud 1048576
  have h2 := C8_tag_error_aborts (s "a=1") exBadSpec (.formatError (s "bad")) []
    [(s "a", s "1")] exBlockNR exEnv exOptionsBadTags (s "AD-1") (s "Delete") exCloud 1048576
  exact ⟨h1.1 (by rfl), h2.2.1 (by rfl) (by rfl), h1.2.2 (by rfl) (by rfl) (by rfl)⟩

theorem wrap64_eq_self (x : Int) (h1 : int64Min ≤ x) (h2 : x ≤ int64Max) :
    wrap64 x = x := by
  have h1' : (-9223372036854775808 : Int) ≤ x := h1
  have h2' : x ≤ (9223372036854775807 : Int) := h2
  unfold wrap64 int64Min
  rw [Int.emod_eq_of_lt (by omega) (by omega)]
  omega

theorem roundUpSize_eq_ediv (b u : Int) (hb : 0 < b) (hu : 0 < u)
    (hr : b + u - 1 ≤ int64Max) :
    roundUpSize b u = (b + u - 1) / u := by
  have hnum : (0 : Int) ≤ b + u - 1 := by omega
  have hrI : b + u - 1 ≤ (9223372036854775807 : Int) := hr
  have hw1 : wrap64 (b + u - 1) = b + u - 1 :=
    wrap64_eq_self _ (by unfold int64Min; omega) hr
  have htd : Int.tdiv (b + u - 1) u = (b + u - 1) / u := Int.tdiv_eq_ediv hnum hu.le
  have hq0 : 0 ≤ (b + u - 1) / u := Int.ediv_nonneg hnum hu.le
  have hqle : (b + u - 1) / u ≤ b + u - 1 := Int.ediv_le_self _ hnum
  have hw2 : wrap64 ((b + u - 1) / u) = (b + u - 1) / u :=
    wrap64_eq_self _ (by unfold int64Min; omega) (by unfold int64Max; omega)
  unfold roundUpSize
  rw [hw1, htd, hw2]

/-- C9: evidence against the claim as stated.  `roundUpSize` runs in
wrapping `int64` arithmetic, so at the positive inputs
`b = 2^63 - 1`, `u = 2^20` the numerator overflows and the result is
negative — not the (positive) ceiling, and truncated below the exact
quotient. -/
theorem C9_overflow_counterexample :
    (0 : Int) < 9223372036854775807 ∧ (0 : Int) < 1048576
    ∧ roundUpSize 9223372036854775807 1048576 < 0
    ∧ ¬ (9223372036854775807 : Int) ≤ 1048576 * roundUpSize 9223372036854775807 1048576 := by
  decide

/-- C9 (amended): for positive byte counts and allocation units whose
numerator `b + u - 1` stays within the `int64` range, `roundUpSize` is
ceiling division, computed as `(b + u - 1) / u`: at least the exact
quotient, less than one unit above it, never zero, with
`roundUpSize u u = 1` and `roundUpSize (u+1) u = 2` when those
numerators are in range. -/
theorem C9_roundUpSize_ceiling (b u : Int) (hb : 0 < b) (hu : 0 < u)
    (hrange : b + u - 1 ≤ int64Max) :
    roundUpSize b u = (b + u - 1) / u
    ∧ b ≤ u * roundUpSize b u
    ∧ u * (roundUpSize b u - 1) < b
    ∧ 1 ≤ roundUpSize b u
    ∧ (u + u - 1 ≤ int64Max → roundUpSize u u = 1)
    ∧ (u + 1 + u - 1 ≤ int64Max → roundUpSize (u + 1) u = 2) := by
  have heq : roundUpSize b u = (b + u - 1) / u := roundUpSize_eq_ediv b u hb hu hrange
  have hdm : u * ((b + u - 1) / u) + (b + u - 1) % u = b + u - 1 :=
    Int.ediv_add_emod (b + u - 1) u
  have hlt : (b + u - 1) % u < u := Int.emod_lt_of_pos _ hu
  have hge : 0 ≤ (b + u - 1) % u := Int.emod_nonneg _ (ne_of_gt hu)
  have hlt' : (b + u - 1) % u + 1 ≤ u := hlt
  refine ⟨heq, ?_, ?_, ?_, ?_, ?_⟩
  · rw [heq]
    linarith
  · rw [heq, mul_sub, mul_one]
    linarith
  · rw [heq, Int.le_ediv_iff_mul_le hu]
    omega
  · intro hr5
    have heq5 : roundUpSize u u = (u + u - 1) / u := roundUpSize_eq_ediv u u hu hu hr5
    have e1 : u + u - 1 = (u - 1) + 1 * u := by ring
    rw [heq5, e1, Int.add_mul_ediv_right _ _ (ne_of_gt hu),
      Int.ediv_eq_zero_of_lt (by omega) (by omega)]
    omega
  · intro hr6
    have heq6 : roundUpSize (u + 1) u = (u + 1 + u - 1) / u :=
      roundUpSize_eq_ediv (u + 1) u (by omega) hu hr6
    have e2 : u + 1 + u - 1 = 2 * u := by ring
    rw [heq6, e2, Int.mul_ediv_cancel _ (ne_of_gt hu)]

/-- C9 witness: the ceiling-division contract evaluated at 5 bytes with a
3-byte unit (all numerators in the `int64` range). -/
theorem C9_roundUpSize_ceiling_witness :
    roundUpSize 5 3 = (5 + 3 - 1) / 3
    ∧ (5 : Int) ≤ 3 * roundUpSize 5 3
    ∧ (3 : Int) * (roundUpSize 5 3 - 1) < 5
    ∧ (1 : Int) ≤ roundUpSize 5 3
    ∧ roundUpSize 3 3 = 1
    ∧ roundUpSize (3 + 1) 3 = 2 := by
  have h := C9_roundUpSize_ceiling 5 3 (by decide) (by decide) (by decide)
  exact ⟨h.1, h.2.1, h.2.2.1, h.2.2.2.1, h.2.2.2.2.1 (by decide), h.2.2.2.2.2 (by decide)⟩

/-- C10: `parseTags` performs no non-emptiness validation: a piece of the
form `=v` parses as a free-form tag with the empty-string key, and a
piece of the form `.k=v` parses as a defined tag under the empty-string
namespace. -/
theorem C10_empty_keys (v k2 : Str) (rest : List Str) (d : Defined) (f : Freeform) :
    (countCh '=' v = 0 →
      parseTagsLoop (('=' :: v) :: rest) d f = parseTagsLoop rest d (insertA [] v f))
    ∧ (countCh '=' k2 = 0 → countCh '=' v = 0 → countCh '.' k2 = 0 →
      parseTagsLoop ((('.' :: k2) ++ '=' :: v) :: rest) d f =
        parseTagsLoop rest (insertA [] (insertA k2 v ((lookupA [] d).getD [])) d) f)
    ∧ parseTags (s "=v") = .ok ([], [([], s "v")])
    ∧ parseTags (s ".k=v") = .ok ([([], [(s "k", s "v")])], []) := by
  refine ⟨?_, ?_, by rfl, by rfl⟩
  · intro hv
    exact parsePiece_freeform [] v rest d f (by simp [countCh]) hv (by simp [countCh])
  · intro h1 h2 h3
    exact parsePiece_defined [] k2 v rest d f (by simp [countCh]) h1 h2 (by simp [countCh]) h3

/-- C10 witness: the empty-key rules evaluated on concrete pieces. -/
theorem C10_empty_keys_witness :
    parseTagsLoop (('=' :: s "v") :: []) [] [] = parseTagsLoop [] [] (insertA [] (s "v") [])
    ∧ parseTagsLoop ((('.' :: s "k") ++ '=' :: s "v") :: []) [] [] =
        parseTagsLoop []
          (insertA [] (insertA (s "k") (s "v") ((lookupA [] ([] : Defined)).getD [])) []) []
    ∧ parseTags (s "=v") = .ok ([], [([], s "v")])
    ∧ parseTags (s ".k=v") = .ok ([([], [(s "k", s "v")])], []) := by
  have h := C10_empty_keys (s "v") (s "k") [] [] []
  exact ⟨h.1 (by decide), h.2.1 (by decide) (by decide) (by decide), h.2.2.1, h.2.2.2⟩

example : parseTags (s "a=1,ns.b=2") = .ok ([(s "ns", [(s "b", s "2")])], [(s "a", s "1")]) := by rfl
example : parseTags (s "bad") = .error (.formatError (s "bad")) := by rfl
example : parseTags (s "a=1=2") = .error (.formatError (s "a=1=2")) := by rfl
example : parseTags (s "a.b.c=2") = .error (.formatError (s "a.b.c=2")) := by rfl
example : parseTags (s "") = .ok ([], []) := by rfl
example : getTags (s "a=1,ns.x=9") (s "a=2,c=3,ns.x=10,ns.y=5") =
    .ok ([(s "ns", [(s "x", s "10"), (s "y", s "5")])], [(s "a", s "2"), (s "c", s "3")]) := by rfl
example : roundUpSize 5 3 = 2 := by decide
